import Mathlib

/-!
Shallow embedding of the MGRS Map Creator application (src/app.py):
the MGRS format validator `validate_mgrs_format`, the batch converter
behind the `/convert` endpoint (`convert_mgrs`), and the KML exporter
behind the `/export_kml` endpoint (`export_kml`).  The external
coordinate conversion `mgrs.MGRS().toLatLon` is an untrusted parameter
of type `String → Except String (Rat × Rat)`; request timestamps are
explicit string parameters.
-/

/-! ## Character classifiers (ASCII model of the Python predicates) -/

/-- Model of Python `\s` / `str.strip` whitespace on ASCII:
space, tab, LF, CR, VT, FF. -/
def pyIsSpace (c : Char) : Bool :=
  decide (c.toNat = 32 ∨ c.toNat = 9 ∨ c.toNat = 10 ∨ c.toNat = 13 ∨
          c.toNat = 11 ∨ c.toNat = 12)

/-- Model of Python `str.upper` on one ASCII character. -/
def pyUpper (c : Char) : Char :=
  if 97 ≤ c.toNat ∧ c.toNat ≤ 122 then Char.ofNat (c.toNat - 32) else c

/-- `c` is an ASCII decimal digit (`str.isdigit` / regex `\d` on ASCII). -/
def isDig (c : Char) : Bool := decide (48 ≤ c.toNat ∧ c.toNat ≤ 57)

/-- `c` is in the regex class `[A-Z]`. -/
def isUpp (c : Char) : Bool := decide (65 ≤ c.toNat ∧ c.toNat ≤ 90)

/-- `c` is in the regex class `[C-X]` (note: as written in the source it
contains the letters I and O). -/
def isBand (c : Char) : Bool := decide (67 ≤ c.toNat ∧ c.toNat ≤ 88)

/-! ## Validator: `validate_mgrs_format` (src/app.py lines 16-50) -/

/-- `re.sub(r'\s+', '', mgrs_code.upper())` on the character list. -/
def cleanCode (l : List Char) : List Char :=
  (l.map pyUpper).filter (fun c => !(pyIsSpace c))

/-- Tail of the regex `[C-X][A-Z]{2}\d{2,10}$`. -/
def matchTail : List Char → Bool
  | b :: s1 :: s2 :: ds =>
      isBand b && isUpp s1 && isUpp s2 &&
      decide (2 ≤ ds.length) && decide (ds.length ≤ 10) && ds.all isDig
  | _ => false

/-- Second leading digit followed by the tail (the two-digit-zone
alternative of `\d{1,2}`). -/
def matchTwo : List Char → Bool
  | c :: rest => isDig c && matchTail rest
  | [] => false

/-- `re.match(r'^\d{1,2}[C-X][A-Z]{2}\d{2,10}$', clean)` as acceptance of
the whole string. -/
def matchesPattern : List Char → Bool
  | c :: rest => isDig c && (matchTail rest || matchTwo rest)
  | [] => false

/-- `for i, char in enumerate(clean): if i >= 3 and char.isdigit():
coord_start = i; break` — the first index `≥ 3` holding a digit. -/
def findDigitFrom : List Char → Nat → Option Nat
  | [], _ => none
  | c :: rest, i =>
      if 3 ≤ i ∧ isDig c = true then some i else findDigitFrom rest (i + 1)

/-- `coord_start` of the source (initialised to 0 when no digit is found). -/
def coordStart (l : List Char) : Nat := (findDigitFrom l 0).getD 0

/-- The grid-zone band letter of a cleaned code: the character right after
the leading digits. -/
def bandOf (l : List Char) : Char := (l.dropWhile isDig).headD ' '

/-- `validate_mgrs_format(mgrs_code)` returning Python's
`(is_valid, clean_or_reason)` pair. -/
def validate_mgrs_format (s : String) : Bool × String :=
  if s = "" then
    (false, "MGRS code is required")
  else if matchesPattern (cleanCode s.data) = false then
    (false, "Invalid MGRS format. Expected format: 23KKP4014597230")
  else if ((cleanCode s.data).drop (coordStart (cleanCode s.data))).length % 2 ≠ 0 then
    (false, "MGRS coordinates must have even number of digits")
  else if ¬ (((cleanCode s.data).drop (coordStart (cleanCode s.data))).length ∈ ([2, 4, 6, 8, 10] : List Nat)) then
    (false, "MGRS coordinates must have 2, 4, 6, 8, or 10 digits. Found " ++
            toString ((cleanCode s.data).drop (coordStart (cleanCode s.data))).length ++ " digits")
  else
    (true, String.mk (cleanCode s.data))

example : validate_mgrs_format "23kkp4014597230" = (true, "23KKP4014597230") := by decide
example : validate_mgrs_format "23K4014" =
    (false, "Invalid MGRS format. Expected format: 23KKP4014597230") := by decide
example : (validate_mgrs_format "18IAB12").1 = true := by decide
example : validate_mgrs_format "" = (false, "MGRS code is required") := by decide

/-! ## Batch converter: `convert_mgrs` (src/app.py lines 56-130) -/

/-- Python `x or default` on an optional string field: the default is used
when the key is missing (`None`) or the value is the empty string. -/
def pyOr (v : Option String) (d : String) : String :=
  match v with
  | none => d
  | some s => if s = "" then d else s

/-- Python `str.strip()`: drop leading and trailing whitespace. -/
def stripChars (l : List Char) : List Char :=
  ((l.dropWhile pyIsSpace).reverse.dropWhile pyIsSpace).reverse

/-- One input record of the `/convert` request body (`p.get(...)` fields). -/
structure RawPoint where
  mgrs : Option String
  name : Option String
  color : Option String
  category : Option String
deriving DecidableEq

/-- One entry of the `/convert` response (`out.append({...})`). -/
structure ConvertedPoint where
  name : String
  mgrs : String
  lat : Option Rat
  lon : Option Rat
  error : Option String
  color : String
  category : String
deriving DecidableEq

/-- `round(float(x), 8)` modelled on rationals. -/
def round8 (q : Rat) : Rat := ((round (q * 100000000) : Int) : Rat) / 100000000

/-- The body of the `for i, p in enumerate(points)` loop for one item:
default-filling, empty-code check, format validation, conversion call with
range check, exception capture. -/
def convertItem (conv : String → Except String (Rat × Rat)) (i : Nat)
    (p : RawPoint) : ConvertedPoint :=
  let code := String.mk (stripChars ((pyOr p.mgrs "").data))
  let name := pyOr p.name ("Ponto " ++ toString (i + 1))
  let color := pyOr p.color "#3388ff"
  let category := pyOr p.category "Ponto"
  if code = "" then
    { name := name, mgrs := code, lat := none, lon := none,
      error := some "MGRS code is required", color := color, category := category }
  else if (validate_mgrs_format code).1 = false then
    { name := name, mgrs := code, lat := none, lon := none,
      error := some (validate_mgrs_format code).2, color := color, category := category }
  else
    match conv (validate_mgrs_format code).2 with
    | Except.error e =>
        { name := name, mgrs := (validate_mgrs_format code).2, lat := none, lon := none,
          error := some ("Falha ao converter MGRS: " ++ e), color := color, category := category }
    | Except.ok (lat, lon) =>
        if ¬(-90 ≤ lat ∧ lat ≤ 90) ∨ ¬(-180 ≤ lon ∧ lon ≤ 180) then
          { name := name, mgrs := (validate_mgrs_format code).2, lat := none, lon := none,
            error := some "Falha ao converter MGRS: Coordinates out of valid range",
            color := color, category := category }
        else
          { name := name, mgrs := (validate_mgrs_format code).2,
            lat := some (round8 lat), lon := some (round8 lon), error := none,
            color := color, category := category }

/-- The whole `enumerate` loop, carrying the running index. -/
def convertLoop (conv : String → Except String (Rat × Rat)) :
    Nat → List RawPoint → List ConvertedPoint
  | _, [] => []
  | i, p :: rest => convertItem conv i p :: convertLoop conv (i + 1) rest

/-- The `/convert` endpoint: empty input is a whole-request error, otherwise
the per-item loop runs from index 0. -/
def convert_mgrs (conv : String → Except String (Rat × Rat))
    (points : List RawPoint) : Except String (List ConvertedPoint) :=
  if points = [] then Except.error "No points provided"
  else Except.ok (convertLoop conv 0 points)

/-- Stand-in for an external conversion call that always raises, used to
exercise the per-item failure handling at concrete inputs. -/
def convStub : String → Except String (Rat × Rat) :=
  fun _ => Except.error "probe"

example :
    convertItem convStub 0 (RawPoint.mk (some " 23K4014 ") none none none) =
      { name := "Ponto 1", mgrs := "23K4014", lat := none, lon := none,
        error := some "Invalid MGRS format. Expected format: 23KKP4014597230",
        color := "#3388ff", category := "Ponto" } := by decide

example :
    (convertItem convStub 4 (RawPoint.mk (some "18IAB12") none none none)).error =
      some "Falha ao converter MGRS: probe" := by decide

/-! ## KML exporter: `export_kml` (src/app.py lines 132-269) -/

/-- Python `str.replace(pat, rep)` for a single-character pattern. -/
def replChar (c : Char) (r : List Char) : List Char → List Char
  | [] => []
  | x :: xs => (if x = c then r else [x]) ++ replChar c r xs

/-- The escaping chain applied to a marker name:
`.replace("&", "&amp;").replace("<", "&lt;").replace(">", "&gt;")`. -/
def escName (l : List Char) : List Char :=
  replChar '>' "&gt;".data
    (replChar '<' "&lt;".data
      (replChar '&' "&amp;".data l))

/-- One input record of the `/export_kml` request body. -/
structure ExportPoint where
  name : Option String
  mgrs : Option String
  category : Option String
  iconType : Option String
  color : Option String
  lat : Option Rat
  lon : Option Rat
deriving DecidableEq

/-- `kml_icon_map` (src/app.py lines 147-158). -/
def kmlIconMap : List (String × String) :=
  [("circle", "http://maps.google.com/mapfiles/kml/pushpin/red-pushpin.png"),
   ("target", "http://maps.google.com/mapfiles/kml/shapes/target.png"),
   ("base", "http://maps.google.com/mapfiles/kml/shapes/camping.png"),
   ("enemy", "http://maps.google.com/mapfiles/kml/shapes/caution.png"),
   ("observation", "http://maps.google.com/mapfiles/kml/shapes/ranger_station.png"),
   ("extraction", "http://maps.google.com/mapfiles/kml/shapes/helicopter.png"),
   ("medical", "http://maps.google.com/mapfiles/kml/shapes/hospitals.png"),
   ("supply", "http://maps.google.com/mapfiles/kml/shapes/convenience.png"),
   ("checkpoint", "http://maps.google.com/mapfiles/kml/shapes/roadblock.png"),
   ("sniper", "http://maps.google.com/mapfiles/kml/shapes/target.png")]

/-- `icon_names` (src/app.py lines 202-213). -/
def iconNames : List (String × String) :=
  [("circle", "Padrão"), ("target", "Alvo"), ("base", "Base"),
   ("enemy", "Inimigo"), ("observation", "Observação"),
   ("extraction", "Extração"), ("medical", "Médico"),
   ("supply", "Suprimentos"), ("checkpoint", "Checkpoint"),
   ("sniper", "Sniper")]

/-- Python `dict.get(k, d)` on an association list. -/
def mapGet (m : List (String × String)) (k d : String) : String :=
  match m.find? (fun kv => kv.1 == k) with
  | some kv => kv.2
  | none => d

/-- The `used_icons` set: the distinct `iconType` values of ALL submitted
points (`p.get('iconType', 'circle')`), collected before any lat/lon
filtering (src/app.py lines 167-170). -/
def usedIcons (points : List ExportPoint) : List String :=
  (points.map (fun p => p.iconType.getD "circle")).dedup

/-- The `<Style>` block lines emitted for each used icon type
(src/app.py lines 172-177). -/
def styleLines (points : List ExportPoint) : List String :=
  (usedIcons points).flatMap (fun icon =>
    ["<Style id=\"style_" ++ icon ++ "\">",
     "<IconStyle><scale>1.3</scale><Icon><href>" ++
       mapGet kmlIconMap icon "http://maps.google.com/mapfiles/kml/pushpin/red-pushpin.png" ++
       "</href></Icon></IconStyle>",
     "<LabelStyle><scale>1.2</scale></LabelStyle>",
     "</Style>"])

/-- The escaped display name of the point at original index `i`
(src/app.py line 188). -/
def escapedName (i : Nat) (p : ExportPoint) : List Char :=
  escName ((pyOr p.name ("Ponto " ++ toString (i + 1))).data)

/-- Python `f"{x:.6f}"` on a rational. -/
def fmt6 (q : Rat) : String :=
  let n : Int := round (q * 1000000)
  let a := n.natAbs
  let fs := toString (a % 1000000)
  (if n < 0 then "-" else "") ++ toString (a / 1000000) ++ "." ++
    String.mk (List.replicate (6 - fs.length) '0') ++ fs

/-- The CDATA description block of one placemark (src/app.py lines 217-225). -/
def pointDescr (ts2 mgrsCode category iconLabel color : String)
    (lat lon : Rat) : String :=
  "<![CDATA[\n                <b>MGRS:</b> " ++ mgrsCode ++
  "<br>\n                <b>Categoria:</b> " ++ category ++
  "<br>\n                <b>Tipo de Ícone:</b> " ++ iconLabel ++
  "<br>\n                <b>Cor:</b> " ++ color ++
  "<br>\n                <b>Coordenadas:</b> " ++ fmt6 lat ++ ", " ++ fmt6 lon ++
  "<br>\n                <b>Exportado em:</b> " ++ ts2 ++
  "<br>\n                <b>Fonte:</b> Task Force MGRS Mapper v2.0\n            ]]>"

/-- One `<Placemark>` line for the point at original index `i`
(src/app.py lines 227-233). -/
def placemark (ts2 : String) (i : Nat) (p : ExportPoint) : String :=
  let mgrsCode := String.mk (replChar '&' "&amp;".data ((pyOr p.mgrs "").data))
  let category := String.mk (replChar '&' "&amp;".data ((pyOr p.category "Ponto").data))
  let iconType := p.iconType.getD "circle"
  let color := p.color.getD "#3388ff"
  let lat := p.lat.getD 0
  let lon := p.lon.getD 0
  "<Placemark><name>" ++ String.mk (escapedName i p) ++ "</name>" ++
  "<description>" ++
    pointDescr ts2 mgrsCode category (mapGet iconNames iconType "Padrão") color lat lon ++
  "</description>" ++
  "<styleUrl>#style_" ++ iconType ++ "</styleUrl>" ++
  "<Point><coordinates>" ++ toString lon ++ "," ++ toString lat ++ ",0</coordinates></Point>" ++
  "</Placemark>"

/-- The marker loop: points missing `lat` or `lon` are skipped (`continue`),
the enumeration index advances over all points (src/app.py lines 187-233). -/
def markerLoop (ts2 : String) : Nat → List ExportPoint → List String
  | _, [] => []
  | i, p :: rest =>
      if p.lat.isSome ∧ p.lon.isSome then
        placemark ts2 i p :: markerLoop ts2 (i + 1) rest
      else markerLoop ts2 (i + 1) rest

/-- The `valid_points` list accumulated by the same loop. -/
def validPoints : List ExportPoint → List ExportPoint
  | [] => []
  | p :: rest =>
      if p.lat.isSome ∧ p.lon.isSome then p :: validPoints rest
      else validPoints rest

/-- `" ".join(f"{p['lon']},{p['lat']},0" for p in valid_points)`. -/
def routeCoords (valid : List ExportPoint) : String :=
  String.intercalate " "
    (valid.map (fun p => toString (p.lon.getD 0) ++ "," ++ toString (p.lat.getD 0) ++ ",0"))

/-- The route description block (src/app.py lines 242-246; the source leaves
the CDATA terminator as `]]`). -/
def routeDescr (ts2 : String) (n : Nat) : String :=
  "<![CDATA[\n                <b>Rota conectando " ++ toString n ++
  " pontos</b><br>\n                <b>Distância aproximada:</b> Calculada pelo Google Earth<br>\n                <b>Criado em:</b> " ++
  ts2 ++ "\n            ]]"

/-- The optional route folder (src/app.py lines 238-255): emitted only when
`connectRoute` is set and at least two valid points remain. -/
def routeLines (ts2 : String) (points : List ExportPoint) (connect : Bool) :
    List String :=
  if connect = true ∧ 2 ≤ (validPoints points).length then
    ["<Folder><name>Rota</name>",
     "<Placemark><name>Rota Tática</name>" ++
       "<description>" ++ routeDescr ts2 (validPoints points).length ++ "</description>" ++
       "<styleUrl>#routeStyle</styleUrl>" ++
       "<LineString><tessellate>1</tessellate><altitudeMode>clampToGround</altitudeMode>" ++
       "<coordinates>" ++ routeCoords (validPoints points) ++ "</coordinates></LineString></Placemark>",
     "</Folder>"]
  else []

/-- All lines accumulated in the `kml` list, in source order. -/
def kmlLines (ts ts2 : String) (points : List ExportPoint) (connect : Bool) :
    List String :=
  ["<?xml version=\"1.0\" encoding=\"UTF-8\"?>",
   "<kml xmlns=\"http://www.opengis.net/kml/2.2\">",
   "<Document><name>Marcadores MGRS - " ++ ts ++ "</name>",
   "<description>Exportado do Task Force MGRS Mapper v2.0</description>"] ++
  styleLines points ++
  ["<Style id=\"routeStyle\">",
   "<LineStyle><color>ff0000ff</color><width>4</width></LineStyle>",
   "</Style>",
   "<Folder><name>Pontos</name>"] ++
  markerLoop ts2 0 points ++
  ["</Folder>"] ++
  routeLines ts2 points connect ++
  ["</Document></kml>"]

/-- The `/export_kml` endpoint: empty input is a whole-request error,
otherwise the joined document is returned. -/
def export_kml (ts ts2 : String) (points : List ExportPoint)
    (connect : Bool) : Except String String :=
  if points = [] then Except.error "No points to export"
  else Except.ok (String.intercalate "\n" (kmlLines ts ts2 points connect))

example :
    export_kml "T" "U" [] false = Except.error "No points to export" := rfl

example :
    markerLoop "U" 0 [ExportPoint.mk none none none none none none none] = [] := by decide

/-! ## Helper lemmas about characters and the grammar -/

lemma upp_not_dig {c : Char} (h : isUpp c = true) : isDig c = false := by
  simp [isUpp, isDig] at *; omega

lemma band_upp {c : Char} (h : isBand c = true) : isUpp c = true := by
  simp [isBand, isUpp] at *; omega

lemma good_pyUpper {c : Char} (h : isDig c = true ∨ isUpp c = true) :
    pyUpper c = c := by
  simp [isDig, isUpp] at h
  unfold pyUpper
  rw [if_neg]
  omega

lemma good_not_space {c : Char} (h : isDig c = true ∨ isUpp c = true) :
    pyIsSpace c = false := by
  simp [isDig, isUpp] at h
  simp [pyIsSpace]
  omega

/-- On a list of digits and uppercase letters, cleaning is the identity. -/
lemma cleanCode_fixed {l : List Char}
    (h : ∀ c ∈ l, isDig c = true ∨ isUpp c = true) : cleanCode l = l := by
  induction l with
  | nil => rfl
  | cons c xs ih =>
      have hc := h c (List.mem_cons_self c xs)
      have hxs : ∀ x ∈ xs, isDig x = true ∨ isUpp x = true :=
        fun x hx => h x (List.mem_cons_of_mem c hx)
      simp only [cleanCode, List.map_cons, List.filter_cons,
        good_pyUpper hc, good_not_space hc]
      simpa [cleanCode] using ih hxs

/-- Structure of any string accepted by the grammar regex: one or two zone
digits, a band letter, two square letters, and a 2-10 digit coordinate run. -/
lemma matches_shape {l : List Char} (h : matchesPattern l = true) :
    (∃ z b s1 s2 ds, l = z :: b :: s1 :: s2 :: ds ∧
       isDig z = true ∧ isBand b = true ∧ isUpp s1 = true ∧ isUpp s2 = true ∧
       (∀ c ∈ ds, isDig c = true) ∧ 2 ≤ ds.length ∧ ds.length ≤ 10) ∨
    (∃ z1 z2 b s1 s2 ds, l = z1 :: z2 :: b :: s1 :: s2 :: ds ∧
       isDig z1 = true ∧ isDig z2 = true ∧ isBand b = true ∧ isUpp s1 = true ∧
       isUpp s2 = true ∧ (∀ c ∈ ds, isDig c = true) ∧
       2 ≤ ds.length ∧ ds.length ≤ 10) := by
  match l with
  | [] => simp [matchesPattern] at h
  | z :: rest =>
      simp only [matchesPattern, Bool.and_eq_true, Bool.or_eq_true] at h
      obtain ⟨hz, hrest⟩ := h
      cases hrest with
      | inl h1 =>
          match rest with
          | [] => simp [matchTail] at h1
          | [b] => simp [matchTail] at h1
          | [b, s1] => simp [matchTail] at h1
          | b :: s1 :: s2 :: ds =>
              simp only [matchTail, Bool.and_eq_true, decide_eq_true_eq,
                List.all_eq_true] at h1
              exact Or.inl ⟨z, b, s1, s2, ds, rfl, hz, h1.1.1.1.1.1, h1.1.1.1.1.2,
                h1.1.1.1.2, h1.2, h1.1.1.2, h1.1.2⟩
      | inr h2 =>
          match rest with
          | [] => simp [matchTwo] at h2
          | z2 :: rest2 =>
              simp only [matchTwo, Bool.and_eq_true] at h2
              obtain ⟨hz2, h1⟩ := h2
              match rest2 with
              | [] => simp [matchTail] at h1
              | [b] => simp [matchTail] at h1
              | [b, s1] => simp [matchTail] at h1
              | b :: s1 :: s2 :: ds =>
                  simp only [matchTail, Bool.and_eq_true, decide_eq_true_eq,
                    List.all_eq_true] at h1
                  exact Or.inr ⟨z, z2, b, s1, s2, ds, rfl, hz, hz2,
                    h1.1.1.1.1.1, h1.1.1.1.1.2, h1.1.1.1.2, h1.2, h1.1.1.2, h1.1.2⟩

lemma findDigit_lt3 (c : Char) (rest : List Char) {i : Nat} (h : i < 3) :
    findDigitFrom (c :: rest) i = findDigitFrom rest (i + 1) := by
  have hn : ¬ (3 ≤ i ∧ isDig c = true) := by rintro ⟨h3, -⟩; omega
  simp only [findDigitFrom, if_neg hn]

lemma findDigit_notdig (c : Char) (rest : List Char) (i : Nat)
    (hd : isDig c = false) :
    findDigitFrom (c :: rest) i = findDigitFrom rest (i + 1) := by
  have hn : ¬ (3 ≤ i ∧ isDig c = true) := by
    rintro ⟨-, hdd⟩; rw [hd] at hdd; exact Bool.false_ne_true hdd
  simp only [findDigitFrom, if_neg hn]

lemma findDigit_hit (c : Char) (rest : List Char) {i : Nat} (h3 : 3 ≤ i)
    (hd : isDig c = true) : findDigitFrom (c :: rest) i = some i := by
  simp only [findDigitFrom, if_pos (And.intro h3 hd)]

/-- For any string accepted by the grammar, the located coordinate run is
exactly the trailing digit block, whose length lies between 2 and 10. -/
lemma coord_run_of_matches {l : List Char} (h : matchesPattern l = true) :
    2 ≤ (l.drop (coordStart l)).length ∧ (l.drop (coordStart l)).length ≤ 10 := by
  rcases matches_shape h with
    ⟨z, b, s1, s2, ds, rfl, hz, hb, h1, h2, hds, hlen2, hlen10⟩ |
    ⟨z1, z2, b, s1, s2, ds, rfl, hz1, hz2, hb, h1, h2, hds, hlen2, hlen10⟩
  · obtain ⟨e1, ds1, rfl⟩ : ∃ e1 ds1, ds = e1 :: ds1 := by
      cases ds with
      | nil => simp at hlen2
      | cons e1 ds1 => exact ⟨e1, ds1, rfl⟩
    have hcs : coordStart (z :: b :: s1 :: s2 :: e1 :: ds1) = 4 := by
      unfold coordStart
      rw [findDigit_lt3 _ _ (by omega), findDigit_lt3 _ _ (by omega),
        findDigit_lt3 _ _ (by omega),
        findDigit_notdig _ _ _ (upp_not_dig h2),
        findDigit_hit _ _ (by omega) (hds e1 (List.mem_cons_self e1 ds1))]
      rfl
    rw [hcs]
    simpa using And.intro hlen2 hlen10
  · obtain ⟨e1, ds1, rfl⟩ : ∃ e1 ds1, ds = e1 :: ds1 := by
      cases ds with
      | nil => simp at hlen2
      | cons e1 ds1 => exact ⟨e1, ds1, rfl⟩
    have hcs : coordStart (z1 :: z2 :: b :: s1 :: s2 :: e1 :: ds1) = 5 := by
      unfold coordStart
      rw [findDigit_lt3 _ _ (by omega), findDigit_lt3 _ _ (by omega),
        findDigit_lt3 _ _ (by omega),
        findDigit_notdig _ _ _ (upp_not_dig h1),
        findDigit_notdig _ _ _ (upp_not_dig h2),
        findDigit_hit _ _ (by omega) (hds e1 (List.mem_cons_self e1 ds1))]
      rfl
    rw [hcs]
    simpa using And.intro hlen2 hlen10

/-- Every character of a grammar-accepted string is a digit or an uppercase
letter, so cleaning it changes nothing. -/
lemma matches_all_good {l : List Char} (h : matchesPattern l = true) :
    ∀ c ∈ l, isDig c = true ∨ isUpp c = true := by
  rcases matches_shape h with
    ⟨z, b, s1, s2, ds, rfl, hz, hb, h1, h2, hds, -, -⟩ |
    ⟨z1, z2, b, s1, s2, ds, rfl, hz1, hz2, hb, h1, h2, hds, -, -⟩ <;>
    intro c hc <;> simp only [List.mem_cons] at hc
  · rcases hc with rfl | rfl | rfl | rfl | hc
    · exact Or.inl hz
    · exact Or.inr (band_upp hb)
    · exact Or.inr h1
    · exact Or.inr h2
    · exact Or.inl (hds c hc)
  · rcases hc with rfl | rfl | rfl | rfl | rfl | hc
    · exact Or.inl hz1
    · exact Or.inl hz2
    · exact Or.inr (band_upp hb)
    · exact Or.inr h1
    · exact Or.inr h2
    · exact Or.inl (hds c hc)

/-- Inversion: what a successful validation tells us. -/
lemma validate_eq_true {s n : String}
    (h : validate_mgrs_format s = (true, n)) :
    s ≠ "" ∧ matchesPattern (cleanCode s.data) = true ∧
    ((cleanCode s.data).drop (coordStart (cleanCode s.data))).length % 2 = 0 ∧
    n = String.mk (cleanCode s.data) := by
  unfold validate_mgrs_format at h
  split_ifs at h with h1 h2 h3 h4 <;> simp at h
  refine ⟨h1, ?_, by omega, h.symm⟩
  cases hm : matchesPattern (cleanCode s.data) with
  | false => exact absurd hm h2
  | true => rfl

/-- Forward direction: the two structural checks suffice for success. -/
lemma validate_of_checks {s : String} (h0 : s ≠ "")
    (h1 : matchesPattern (cleanCode s.data) = true)
    (h2 : ((cleanCode s.data).drop (coordStart (cleanCode s.data))).length % 2 = 0) :
    validate_mgrs_format s = (true, String.mk (cleanCode s.data)) := by
  have hb := coord_run_of_matches h1
  have hmem : ((cleanCode s.data).drop (coordStart (cleanCode s.data))).length ∈
      ([2, 4, 6, 8, 10] : List Nat) := by
    simp only [List.mem_cons, List.not_mem_nil, or_false]
    omega
  unfold validate_mgrs_format
  rw [if_neg h0, if_neg (by simp [h1]), if_neg (by omega),
    if_neg (not_not_intro hmem)]

/-- C7: `validate` is idempotent on its own successful output — whenever
`validate_mgrs_format s` returns `(true, n)`, running it again on `n`
returns `(true, n)` with the same normalized code. -/
theorem validate_idempotent (s n : String)
    (h : validate_mgrs_format s = (true, n)) :
    validate_mgrs_format n = (true, n) := by
  obtain ⟨h0, h1, h2, rfl⟩ := validate_eq_true h
  have hfix : cleanCode (cleanCode s.data) = cleanCode s.data :=
    cleanCode_fixed (matches_all_good h1)
  have hne : cleanCode s.data ≠ [] := by
    intro hL
    rw [hL] at h1
    simp [matchesPattern] at h1
  have hne' : String.mk (cleanCode s.data) ≠ "" :=
    fun hEq => hne (congrArg String.data hEq)
  have hdata : (String.mk (cleanCode s.data)).data = cleanCode s.data := rfl
  have h1' : matchesPattern (cleanCode (String.mk (cleanCode s.data)).data) = true := by
    rw [hdata, hfix]; exact h1
  have h2' : ((cleanCode (String.mk (cleanCode s.data)).data).drop
      (coordStart (cleanCode (String.mk (cleanCode s.data)).data))).length % 2 = 0 := by
    rw [hdata, hfix]; exact h2
  have := validate_of_checks hne' h1' h2'
  rw [hdata, hfix] at this
  exact this

/-- Witness for C7 at the spec's concrete scenario code. -/
theorem validate_idempotent_witness :
    validate_mgrs_format "23KKP4014597230" = (true, "23KKP4014597230") :=
  validate_idempotent "23kkp4014597230" "23KKP4014597230" (by decide)

/-- C8: the layered digit-count checks never disagree — for every input
accepted by the grammar regex whose located coordinate run has even length,
that length necessarily lies in {2, 4, 6, 8, 10}, so the branch failing
with the digit-count-set reason is unreachable. -/
theorem digit_count_layers_agree (l : List Char)
    (h1 : matchesPattern l = true)
    (h2 : (l.drop (coordStart l)).length % 2 = 0) :
    (l.drop (coordStart l)).length ∈ ([2, 4, 6, 8, 10] : List Nat) := by
  have hb := coord_run_of_matches h1
  simp only [List.mem_cons, List.not_mem_nil, or_false]
  omega

/-- Witness for C8 at a concrete grammar-accepted code. -/
theorem digit_count_layers_agree_witness :
    matchesPattern "1CAB12".data = true ∧
    ("1CAB12".data.drop (coordStart "1CAB12".data)).length ∈
      ([2, 4, 6, 8, 10] : List Nat) :=
  ⟨by decide, digit_count_layers_agree "1CAB12".data (by decide) (by decide)⟩

/-- C3 counterexample: the claim says every code whose band letter is I or O
is rejected with the format error and never forwarded to conversion.  The
regex class `[C-X]` of the source contains I and O, so `"18IAB12"` (band I)
validates successfully and the external conversion call is reached (the
probe stub's message is echoed as the per-item error). -/
theorem band_I_O_rejection_cex :
    (validate_mgrs_format "18IAB12").1 = true ∧
    bandOf (cleanCode "18IAB12".data) = 'I' ∧
    (convertItem convStub 0 (RawPoint.mk (some "18IAB12") none none none)).error =
      some "Falha ao converter MGRS: probe" := by decide

/-- C3 amended: `validate` accepts band letters I and O like any other
letter of `[C-X]` — every non-empty input whose cleaned form matches the
grammar regex and has an even coordinate run validates successfully even
when its band letter is I or O, and the normalized code is returned. -/
theorem validate_accepts_band_I_O (s : String) (h0 : s ≠ "")
    (h1 : matchesPattern (cleanCode s.data) = true)
    (h2 : ((cleanCode s.data).drop (coordStart (cleanCode s.data))).length % 2 = 0)
    (h3 : bandOf (cleanCode s.data) = 'I' ∨ bandOf (cleanCode s.data) = 'O') :
    validate_mgrs_format s = (true, String.mk (cleanCode s.data)) :=
  validate_of_checks h0 h1 h2

/-- Witness for the amended C3 at band letter I. -/
theorem validate_accepts_band_I_O_witness :
    validate_mgrs_format "18IAB12" = (true, "18IAB12") :=
  validate_accepts_band_I_O "18IAB12" (by decide) (by decide) (by decide)
    (Or.inl (by decide))

/-! ## Batch converter theorems -/

lemma convertLoop_length (conv : String → Except String (Rat × Rat))
    (k : Nat) (ps : List RawPoint) :
    (convertLoop conv k ps).length = ps.length := by
  induction ps generalizing k with
  | nil => rfl
  | cons p rest ih => simp [convertLoop, ih]

lemma convertLoop_get (conv : String → Except String (Rat × Rat)) :
    ∀ (ps : List RawPoint) (k i : Nat) (hi : i < ps.length)
      (ho : i < (convertLoop conv k ps).length),
      (convertLoop conv k ps).get ⟨i, ho⟩ = convertItem conv (k + i) (ps.get ⟨i, hi⟩) := by
  intro ps
  induction ps with
  | nil => intro k i hi; simp at hi
  | cons p rest ih =>
      intro k i hi ho
      cases i with
      | zero => simp [convertLoop]
      | succ j =>
          have hj : j < rest.length := by simpa using hi
          have hjo : j < (convertLoop conv (k + 1) rest).length := by
            rw [convertLoop_length]; exact hj
          have := ih (k + 1) j hj hjo
          simp only [convertLoop, List.get_cons_succ]
          rw [this]
          congr 1
          omega

/-- C1: `convertBatch` is length- and order-preserving — for every non-empty
input list and every external conversion function (including one that fails
on every item), the request succeeds with exactly one output entry per input
entry, and the entry at index `i` is the conversion of the input at index
`i`; a failure on one item never fails the whole request. -/
theorem convert_batch_length_order (conv : String → Except String (Rat × Rat))
    (ps : List RawPoint) (h : ps ≠ []) :
    convert_mgrs conv ps = Except.ok (convertLoop conv 0 ps) ∧
    (convertLoop conv 0 ps).length = ps.length ∧
    ∀ (i : Nat) (hi : i < ps.length) (ho : i < (convertLoop conv 0 ps).length),
      (convertLoop conv 0 ps).get ⟨i, ho⟩ = convertItem conv i (ps.get ⟨i, hi⟩) := by
  refine ⟨by simp [convert_mgrs, h], convertLoop_length conv 0 ps, ?_⟩
  intro i hi ho
  rw [convertLoop_get conv ps 0 i hi ho]
  simp

/-- Witness for C1: a two-item batch (one empty code, one well-formed code)
under an always-failing conversion function still yields a per-item output. -/
theorem convert_batch_length_order_witness :
    convert_mgrs convStub
        [RawPoint.mk (some "") none none none,
         RawPoint.mk (some "23KKP4014597230") none none none] =
      Except.ok (convertLoop convStub 0
        [RawPoint.mk (some "") none none none,
         RawPoint.mk (some "23KKP4014597230") none none none]) ∧
    (convertLoop convStub 0
        [RawPoint.mk (some "") none none none,
         RawPoint.mk (some "23KKP4014597230") none none none]).length = 2 :=
  ⟨(convert_batch_length_order convStub _ (by simp)).1,
   (convert_batch_length_order convStub _ (by simp)).2.1⟩

/-- C4: every output entry of the batch converter satisfies the
ConvertedPoint invariant — exactly one of (lat and lon) or (error) is
present — and the default-filled metadata fields (name, color, category)
are echoed back unchanged. -/
theorem converted_point_invariant (conv : String → Except String (Rat × Rat))
    (i : Nat) (p : RawPoint) :
    (((convertItem conv i p).lat.isSome = true ∧
      (convertItem conv i p).lon.isSome = true ∧
      (convertItem conv i p).error = none) ∨
     ((convertItem conv i p).lat = none ∧
      (convertItem conv i p).lon = none ∧
      (convertItem conv i p).error.isSome = true)) ∧
    (convertItem conv i p).name = pyOr p.name ("Ponto " ++ toString (i + 1)) ∧
    (convertItem conv i p).color = pyOr p.color "#3388ff" ∧
    (convertItem conv i p).category = pyOr p.category "Ponto" := by
  simp only [convertItem]
  split
  · simp
  · split
    · simp
    · split
      · simp
      · split
        · simp
        · simp

/-- C5 counterexample: the claim says a validation-rejected item echoes the
raw code exactly as submitted, including any original whitespace.  The
source strips leading/trailing whitespace before validating and echoes the
stripped string: for the submitted code `" 23K4014 "`, the emitted entry
carries `"23K4014"`, not the original string. -/
theorem rejected_mgrs_echo_cex :
    (convertItem convStub 0 (RawPoint.mk (some " 23K4014 ") none none none)).error =
      some "Invalid MGRS format. Expected format: 23KKP4014597230" ∧
    (convertItem convStub 0 (RawPoint.mk (some " 23K4014 ") none none none)).mgrs =
      "23K4014" ∧
    (convertItem convStub 0 (RawPoint.mk (some " 23K4014 ") none none none)).mgrs ≠
      " 23K4014 " := by decide

/-- C5 amended: for every batch item whose code the validator rejects, the
emitted entry's mgrs field equals the submitted raw code with leading and
trailing whitespace stripped (internal characters unmodified), and the
error field carries the validation reason. -/
theorem rejected_mgrs_echo (conv : String → Except String (Rat × Rat))
    (i : Nat) (p : RawPoint)
    (hne : String.mk (stripChars ((pyOr p.mgrs "").data)) ≠ "")
    (hval : (validate_mgrs_format (String.mk (stripChars ((pyOr p.mgrs "").data)))).1 = false) :
    (convertItem conv i p).mgrs = String.mk (stripChars ((pyOr p.mgrs "").data)) ∧
    (convertItem conv i p).error =
      some (validate_mgrs_format (String.mk (stripChars ((pyOr p.mgrs "").data)))).2 := by
  simp only [convertItem]
  rw [if_neg hne, if_pos hval]
  exact ⟨rfl, rfl⟩

/-- Witness for the amended C5 at the counterexample's input. -/
theorem rejected_mgrs_echo_witness :
    (convertItem convStub 3 (RawPoint.mk (some " 23K4014 ") none none none)).mgrs =
      String.mk (stripChars ((pyOr (some " 23K4014 ") "").data)) ∧
    (convertItem convStub 3 (RawPoint.mk (some " 23K4014 ") none none none)).error =
      some (validate_mgrs_format
        (String.mk (stripChars ((pyOr (some " 23K4014 ") "").data)))).2 :=
  rejected_mgrs_echo convStub 3 (RawPoint.mk (some " 23K4014 ") none none none)
    (by decide) (by decide)

/-- The metadata fields of a converted entry are the default-filled inputs,
in every branch of the item loop. -/
lemma convertItem_meta (conv : String → Except String (Rat × Rat))
    (i : Nat) (p : RawPoint) :
    (convertItem conv i p).name = pyOr p.name ("Ponto " ++ toString (i + 1)) ∧
    (convertItem conv i p).color = pyOr p.color "#3388ff" ∧
    (convertItem conv i p).category = pyOr p.category "Ponto" := by
  simp only [convertItem]
  split
  · simp
  · split
    · simp
    · split
      · simp
      · split
        · simp
        · simp

/-- The default is echoed only when it has to be: filling a non-empty
default never yields the empty string. -/
lemma pyOr_ne_empty {v : Option String} {d : String} (hd : d ≠ "") :
    pyOr v d ≠ "" := by
  cases v with
  | none => exact hd
  | some s =>
      by_cases hs : s = ""
      · rw [pyOr, if_pos hs]; exact hd
      · rw [pyOr, if_neg hs]; exact hs

/-- The positional default name is never the empty string. -/
lemma default_name_ne_empty (i : Nat) : ("Ponto " ++ toString (i + 1)) ≠ "" := by
  intro hEq
  have hlen := congrArg String.length hEq
  rw [String.length_append] at hlen
  have h6 : "Ponto ".length = 6 := rfl
  have hz : "".length = 0 := rfl
  omega

/-- C10: a record whose name, color, or category field is present but equal
to the empty string is treated — field by field, independently — exactly
like a record missing that field: the positional default name, the default
color `"#3388ff"` and the default category are filled in, and the empty
string is never echoed back for any of these fields. -/
theorem convert_empty_fields_defaults (conv : String → Except String (Rat × Rat))
    (i : Nat) (p : RawPoint) :
    (p.name = some "" →
      convertItem conv i p =
        convertItem conv i (RawPoint.mk p.mgrs none p.color p.category) ∧
      (convertItem conv i p).name = "Ponto " ++ toString (i + 1)) ∧
    (p.color = some "" →
      convertItem conv i p =
        convertItem conv i (RawPoint.mk p.mgrs p.name none p.category) ∧
      (convertItem conv i p).color = "#3388ff") ∧
    (p.category = some "" →
      convertItem conv i p =
        convertItem conv i (RawPoint.mk p.mgrs p.name p.color none) ∧
      (convertItem conv i p).category = "Ponto") ∧
    (convertItem conv i p).name ≠ "" ∧
    (convertItem conv i p).color ≠ "" ∧
    (convertItem conv i p).category ≠ "" := by
  obtain ⟨mn, mc, mk⟩ := convertItem_meta conv i p
  refine ⟨fun hn => ⟨?_, ?_⟩, fun hc => ⟨?_, ?_⟩, fun hk => ⟨?_, ?_⟩, ?_, ?_, ?_⟩
  · simp [convertItem, pyOr, hn]
  · rw [mn, hn]; rfl
  · simp [convertItem, pyOr, hc]
  · rw [mc, hc]; rfl
  · simp [convertItem, pyOr, hk]
  · rw [mk, hk]; rfl
  · rw [mn]; exact pyOr_ne_empty (default_name_ne_empty i)
  · rw [mc]; exact pyOr_ne_empty (by decide)
  · rw [mk]; exact pyOr_ne_empty (by decide)

/-- Witness for C10: a record with only the name field present-but-empty
(color and category populated) still receives the positional default name
and is treated like a record missing only that field. -/
theorem convert_empty_fields_defaults_witness :
    convertItem convStub 0
        (RawPoint.mk (some "x") (some "") (some "#fff") (some "Alpha")) =
      convertItem convStub 0
        (RawPoint.mk (some "x") none (some "#fff") (some "Alpha")) ∧
    (convertItem convStub 0
        (RawPoint.mk (some "x") (some "") (some "#fff") (some "Alpha"))).name =
      "Ponto 1" :=
  have h := convert_empty_fields_defaults convStub 0
    (RawPoint.mk (some "x") (some "") (some "#fff") (some "Alpha"))
  ⟨(h.1 rfl).1, (h.1 rfl).2⟩

/-! ## Exporter theorems -/

/-- Single-pass specification of the three-stage replace chain. -/
def escSpec : List Char → List Char
  | [] => []
  | c :: xs =>
      (if c = '&' then "&amp;".data else if c = '<' then "&lt;".data
       else if c = '>' then "&gt;".data else [c]) ++ escSpec xs

mutual

/-- A character list is well escaped when it holds no raw `<` or `>` and
every `&` starts one of the entities `&amp;`, `&lt;`, `&gt;`. -/
def wellEscaped : List Char → Bool
  | [] => true
  | c :: rest =>
      if c = '<' ∨ c = '>' then false
      else if c = '&' then ampTail rest
      else wellEscaped rest

/-- The recognizer for what may follow a `&` in a well-escaped list. -/
def ampTail : List Char → Bool
  | 'a' :: 'm' :: 'p' :: ';' :: r2 => wellEscaped r2
  | 'l' :: 't' :: ';' :: r2 => wellEscaped r2
  | 'g' :: 't' :: ';' :: r2 => wellEscaped r2
  | _ => false

end

lemma replChar_append (c : Char) (r a b : List Char) :
    replChar c r (a ++ b) = replChar c r a ++ replChar c r b := by
  induction a with
  | nil => rfl
  | cons x xs ih => simp [replChar, ih, List.append_assoc]

lemma escName_cons (c : Char) (xs : List Char) :
    escName (c :: xs) =
      (if c = '&' then "&amp;".data else if c = '<' then "&lt;".data
       else if c = '>' then "&gt;".data else [c]) ++ escName xs := by
  by_cases h1 : c = '&'
  · subst h1
    show escName ('&' :: xs) = "&amp;".data ++ escName xs
    unfold escName
    rw [show replChar '&' "&amp;".data ('&' :: xs) =
          "&amp;".data ++ replChar '&' "&amp;".data xs from by simp [replChar]]
    rw [replChar_append, replChar_append]
    rw [show replChar '<' "&lt;".data "&amp;".data = "&amp;".data from rfl]
    rw [show replChar '>' "&gt;".data "&amp;".data = "&amp;".data from rfl]
  · by_cases h2 : c = '<'
    · subst h2
      show escName ('<' :: xs) = "&lt;".data ++ escName xs
      unfold escName
      rw [show replChar '&' "&amp;".data ('<' :: xs) =
            ['<'] ++ replChar '&' "&amp;".data xs from by simp [replChar]]
      rw [replChar_append, replChar_append]
      rw [show replChar '<' "&lt;".data ['<'] = "&lt;".data from rfl]
      rw [show replChar '>' "&gt;".data "&lt;".data = "&lt;".data from rfl]
    · by_cases h3 : c = '>'
      · subst h3
        show escName ('>' :: xs) = "&gt;".data ++ escName xs
        unfold escName
        rw [show replChar '&' "&amp;".data ('>' :: xs) =
              ['>'] ++ replChar '&' "&amp;".data xs from by simp [replChar]]
        rw [replChar_append, replChar_append]
        rw [show replChar '<' "&lt;".data ['>'] = ['>'] from rfl]
        rw [show replChar '>' "&gt;".data ['>'] = "&gt;".data from rfl]
      · rw [if_neg h1, if_neg h2, if_neg h3]
        unfold escName
        rw [show replChar '&' "&amp;".data (c :: xs) =
              [c] ++ replChar '&' "&amp;".data xs from by simp [replChar, h1]]
        rw [replChar_append, replChar_append]
        rw [show replChar '<' "&lt;".data [c] = [c] from by simp [replChar, h2]]
        rw [show replChar '>' "&gt;".data [c] = [c] from by simp [replChar, h3]]

/-- The sequential replace chain of the source equals the single-pass
per-character escaper. -/
lemma escName_eq_escSpec (l : List Char) : escName l = escSpec l := by
  induction l with
  | nil => rfl
  | cons c xs ih => rw [escName_cons, ih]; simp [escSpec]

lemma wellEscaped_other {c : Char} (r : List Char) (h1 : c ≠ '<')
    (h2 : c ≠ '>') (h3 : c ≠ '&') :
    wellEscaped (c :: r) = wellEscaped r := by
  conv_lhs => rw [wellEscaped]
  rw [if_neg (by simp [h1, h2]), if_neg h3]

/-- The single-pass escaper always produces a well-escaped list. -/
lemma wellEscaped_escSpec (l : List Char) : wellEscaped (escSpec l) = true := by
  induction l with
  | nil => rfl
  | cons c xs ih =>
      by_cases h1 : c = '&'
      · subst h1
        rw [show escSpec ('&' :: xs) =
              '&' :: 'a' :: 'm' :: 'p' :: ';' :: escSpec xs from by simp [escSpec]]
        rw [show wellEscaped ('&' :: 'a' :: 'm' :: 'p' :: ';' :: escSpec xs) =
              wellEscaped (escSpec xs) from by
            conv_lhs => rw [wellEscaped]
            simp [ampTail]]
        exact ih
      · by_cases h2 : c = '<'
        · subst h2
          rw [show escSpec ('<' :: xs) =
                '&' :: 'l' :: 't' :: ';' :: escSpec xs from by simp [escSpec]]
          rw [show wellEscaped ('&' :: 'l' :: 't' :: ';' :: escSpec xs) =
                wellEscaped (escSpec xs) from by
              conv_lhs => rw [wellEscaped]
              simp [ampTail]]
          exact ih
        · by_cases h3 : c = '>'
          · subst h3
            rw [show escSpec ('>' :: xs) =
                  '&' :: 'g' :: 't' :: ';' :: escSpec xs from by simp [escSpec]]
            rw [show wellEscaped ('&' :: 'g' :: 't' :: ';' :: escSpec xs) =
                  wellEscaped (escSpec xs) from by
                conv_lhs => rw [wellEscaped]
                simp [ampTail]]
            exact ih
          · rw [show escSpec (c :: xs) = c :: escSpec xs from by
                  simp [escSpec, h1, h2, h3]]
            rw [wellEscaped_other _ h2 h3 h1]
            exact ih

/-- The escaper emits no raw `<` or `>` at all. -/
lemma escSpec_no_raw (l : List Char) : '<' ∉ escSpec l ∧ '>' ∉ escSpec l := by
  induction l with
  | nil => simp [escSpec]
  | cons c xs ih =>
      simp only [escSpec, List.mem_append]
      by_cases h1 : c = '&'
      · subst h1
        refine ⟨?_, ?_⟩ <;> rintro (h | h)
        · exact absurd h (by decide)
        · exact ih.1 h
        · exact absurd h (by decide)
        · exact ih.2 h
      · by_cases h2 : c = '<'
        · subst h2
          rw [if_neg h1]
          refine ⟨?_, ?_⟩ <;> rintro (h | h)
          · simp at h
          · exact ih.1 h
          · simp at h
          · exact ih.2 h
        · by_cases h3 : c = '>'
          · subst h3
            rw [if_neg h1, if_neg h2]
            refine ⟨?_, ?_⟩ <;> rintro (h | h)
            · simp at h
            · exact ih.1 h
            · simp at h
            · exact ih.2 h
          · rw [if_neg h1, if_neg h2, if_neg h3]
            refine ⟨?_, ?_⟩ <;> rintro (h | h)
            · simp at h; exact h2 h.symm
            · exact ih.1 h
            · simp at h; exact h3 h.symm
            · exact ih.2 h

/-- C9: the display name embedded in each exported placemark has `&`, `<`
and `>` replaced by their entity forms — the escaped name contains no raw
`<` or `>` at all, and every `&` in it begins one of the entities `&amp;`,
`&lt;`, `&gt;`. -/
theorem exported_name_escaped (i : Nat) (p : ExportPoint) :
    wellEscaped (escapedName i p) = true ∧
    '<' ∉ escapedName i p ∧ '>' ∉ escapedName i p := by
  unfold escapedName
  rw [escName_eq_escSpec]
  exact ⟨wellEscaped_escSpec _, escSpec_no_raw _⟩

/-- C2 counterexample: the claim says a non-empty export whose points all
lack coordinates fails with an explicit error before any markup is built.
The source only errors on an empty list: for a single point without lat/lon
it returns a full document whose marker folder is empty. -/
theorem export_all_invalid_cex :
    export_kml "T" "U" [ExportPoint.mk none none none none none none none] false =
      Except.ok (String.intercalate "\n"
        (kmlLines "T" "U" [ExportPoint.mk none none none none none none none] false)) ∧
    export_kml "T" "U" [ExportPoint.mk none none none none none none none] false ≠
      Except.error "No points to export" ∧
    markerLoop "U" 0 [ExportPoint.mk none none none none none none none] = [] :=
  ⟨rfl, by simp [export_kml], rfl⟩

lemma markerLoop_all_skip (ts2 : String) :
    ∀ (i : Nat) (ps : List ExportPoint),
      (∀ p ∈ ps, p.lat = none ∨ p.lon = none) → markerLoop ts2 i ps = [] := by
  intro i ps
  induction ps generalizing i with
  | nil => intro; rfl
  | cons p rest ih =>
      intro h
      have hp := h p (List.mem_cons_self p rest)
      have hcond : ¬ (p.lat.isSome ∧ p.lon.isSome) := by
        rcases hp with hp | hp <;> simp [hp]
      rw [markerLoop, if_neg hcond]
      exact ih (i + 1) (fun q hq => h q (List.mem_cons_of_mem p hq))

lemma validPoints_all_skip :
    ∀ (ps : List ExportPoint),
      (∀ p ∈ ps, p.lat = none ∨ p.lon = none) → validPoints ps = [] := by
  intro ps
  induction ps with
  | nil => intro; rfl
  | cons p rest ih =>
      intro h
      have hp := h p (List.mem_cons_self p rest)
      have hcond : ¬ (p.lat.isSome ∧ p.lon.isSome) := by
        rcases hp with hp | hp <;> simp [hp]
      rw [validPoints, if_neg hcond]
      exact ih (fun q hq => h q (List.mem_cons_of_mem p hq))

/-- C2 amended: export fails only when the input list itself is empty; on a
non-empty list whose points all lack lat or lon it still returns a full
document, with zero placemark markers and no route folder. -/
theorem export_all_missing_coords (ts ts2 : String)
    (points : List ExportPoint) (connect : Bool) (h1 : points ≠ [])
    (h2 : ∀ p ∈ points, p.lat = none ∨ p.lon = none) :
    export_kml ts ts2 points connect =
      Except.ok (String.intercalate "\n" (kmlLines ts ts2 points connect)) ∧
    markerLoop ts2 0 points = [] ∧
    validPoints points = [] ∧
    routeLines ts2 points connect = [] := by
  have hv := validPoints_all_skip points h2
  refine ⟨by simp [export_kml, h1], markerLoop_all_skip ts2 0 points h2, hv, ?_⟩
  rw [routeLines, if_neg]
  rintro ⟨-, hlen⟩
  rw [hv] at hlen
  simp at hlen

/-- Witness for the amended C2: one coordinate-free point, route requested. -/
theorem export_all_missing_coords_witness :
    export_kml "T" "U" [ExportPoint.mk (some "n") (some "m") none none none none none] true =
      Except.ok (String.intercalate "\n"
        (kmlLines "T" "U" [ExportPoint.mk (some "n") (some "m") none none none none none] true)) ∧
    markerLoop "U" 0 [ExportPoint.mk (some "n") (some "m") none none none none none] = [] ∧
    validPoints [ExportPoint.mk (some "n") (some "m") none none none none none] = [] ∧
    routeLines "U" [ExportPoint.mk (some "n") (some "m") none none none none none] true = [] :=
  export_all_missing_coords "T" "U"
    [ExportPoint.mk (some "n") (some "m") none none none none none] true
    (by simp) (by decide)

/-- C6 counterexample: the claim says styles are derived only from the
points that survive the lat/lon filter.  The source collects `used_icons`
from ALL submitted points before filtering: with a coordinate-free point of
icon type `target` and a valid point of default icon type, the document
still contains the `style_target` definition although no remaining point
uses it. -/
theorem style_from_dropped_point_cex :
    ("<Style id=\"style_target\">" ∈
      kmlLines "T" "U"
        [ExportPoint.mk none none none (some "target") none none none,
         ExportPoint.mk none none none none none (some 1) (some 2)] false) ∧
    validPoints
        [ExportPoint.mk none none none (some "target") none none none,
         ExportPoint.mk none none none none none (some 1) (some 2)] =
      [ExportPoint.mk none none none none none (some 1) (some 2)] ∧
    usedIcons (validPoints
        [ExportPoint.mk none none none (some "target") none none none,
         ExportPoint.mk none none none none none (some 1) (some 2)]) =
      ["circle"] := by decide

/-- C6 amended: export emits one reusable style definition exactly for each
distinct iconType among ALL submitted points — including those later
dropped for missing coordinates — not just among the remaining points. -/
theorem style_per_icon_all_points (points : List ExportPoint) (t : String) :
    (t ∈ usedIcons points ↔
      t ∈ points.map (fun p => p.iconType.getD "circle")) ∧
    (usedIcons points).Nodup ∧
    (t ∈ usedIcons points →
      ("<Style id=\"style_" ++ t ++ "\">") ∈ styleLines points) := by
  refine ⟨List.mem_dedup, List.nodup_dedup _, ?_⟩
  intro ht
  unfold styleLines
  rw [List.mem_flatMap]
  exact ⟨t, ht, by simp⟩
